import Mathlib

/-!
Formal model of the todo application's optimistic sync and conflict-resolution
engine, with theorems checking the engine's specification against the code.

The TypeScript sources are embedded shallowly:

* JavaScript `Map<string, V>` values become association lists
  (`List (String × V)`), with `Map.get` as `lookupAssoc` and `Map.set` as
  `assocSet` (replace-in-place, preserving insertion order, as JS maps do).
* ISO-8601 timestamp strings handled by the server store are kept as `String`
  (the server compares them with JavaScript string `<`, modelled by the
  lexicographic order on `String`); timestamps handled by the client merge
  module are modelled as their parsed epoch milliseconds (`Nat`), because the
  client compares them through `Date` values.
* In-place object mutation becomes explicit state passing.
* `async` functions of the server store suspend at no point between check and
  mutation, so they are modelled as pure state transformers.
-/

/-! ## Association list helpers (JavaScript `Map` semantics) -/

/-- Models `Map.get(k)`: the value stored at the first (unique) entry with key
`k`, if any. -/
def lookupAssoc {α : Type} (m : List (String × α)) (k : String) : Option α :=
  (m.find? (fun p => p.1 == k)).map (fun p => p.2)

/-- Models `Map.set(k, v)`: replaces the entry with key `k` in place, keeping
its original position, or appends a new entry when the key is absent. -/
def assocSet {α : Type} : List (String × α) → String → α → List (String × α)
  | [], k, v => [(k, v)]
  | p :: rest, k, v => if p.1 = k then (k, v) :: rest else p :: assocSet rest k v

/-- Models `Map.delete(k)`: removes the (unique) entry with key `k`, if any. -/
def assocDelete {α : Type} : List (String × α) → String → List (String × α)
  | [], _ => []
  | p :: rest, k => if p.1 = k then rest else p :: assocDelete rest k

/-! ## State machine (`packages/core/src/todo-state-machine.ts`) -/

/-- The three todo states (`type TodoState = 'TODO' | 'ONGOING' | 'DONE'`). -/
inductive TodoState
  | TODO
  | ONGOING
  | DONE
deriving DecidableEq, Repr, Fintype

/-- `ALLOWED_NEXT_STATES`: the transition table from the source. -/
def ALLOWED_NEXT_STATES : TodoState → List TodoState
  | .TODO => [.ONGOING]
  | .ONGOING => [.TODO, .DONE]
  | .DONE => [.ONGOING]

/-- `isValidTransition(from, to)`: `ALLOWED_NEXT_STATES[from].includes(to)`. -/
def isValidTransition (fromState toState : TodoState) : Bool :=
  (ALLOWED_NEXT_STATES fromState).contains toState

/-- `getAllowedNextStates(state)`. -/
def getAllowedNextStates (s : TodoState) : List TodoState :=
  ALLOWED_NEXT_STATES s

/-! ## Server-side todo entity (`packages/core/src/types.ts`) -/

/-- The `Todo` entity as the server store holds it: all timestamp fields are
ISO-8601 strings, exactly as in the source. -/
structure Todo where
  id : String
  listId : String
  title : String
  state : TodoState
  createdBy : String
  createdAt : String
  updatedAt : String
  version : Nat
  deletedAt : Option String := none
deriving DecidableEq, Repr

/-- The private `todos` map of the server store (`todoId → Todo`). -/
abbrev TodoMap := List (String × Todo)

/-- `todos.get(todoId)`. -/
def lookupTodo (m : TodoMap) (todoId : String) : Option Todo :=
  lookupAssoc m todoId

/-- The `updates` argument of `compareAndSwapTodo`:
`Partial<Omit<Todo, 'id' | 'listId' | 'createdBy' | 'createdAt'>>`.
`none` means the field is absent from the partial object. -/
structure TodoUpdates where
  title : Option String := none
  state : Option TodoState := none
  updatedAt : Option String := none
  version : Option Nat := none
  deletedAt : Option (Option String) := none
deriving DecidableEq, Repr

/-- Models `Object.assign(todo, updates)`: every field present in `updates`
overwrites the corresponding field of `todo`. -/
def applyTodoUpdates (t : Todo) (u : TodoUpdates) : Todo :=
  { t with
    title := u.title.getD t.title
    state := u.state.getD t.state
    updatedAt := u.updatedAt.getD t.updatedAt
    version := u.version.getD t.version
    deletedAt := u.deletedAt.getD t.deletedAt }

/-- `CompareAndSwapResult` discriminated union from the store module. -/
inductive CompareAndSwapResult
  | success (todo : Todo)
  | conflict (currentTodo : Todo)
  | notFound
deriving DecidableEq, Repr

/-- `compareAndSwapTodo(todoId, expectedVersion, updates)`.  The source mutates
the stored object in place; here the updated map is returned alongside the
result. -/
def compareAndSwapTodo (m : TodoMap) (todoId : String) (expectedVersion : Nat)
    (updates : TodoUpdates) : CompareAndSwapResult × TodoMap :=
  match lookupTodo m todoId with
  | none => (CompareAndSwapResult.notFound, m)
  | some todo =>
    if todo.version ≠ expectedVersion then
      (CompareAndSwapResult.conflict todo, m)
    else
      let updated := { applyTodoUpdates todo updates with version := expectedVersion + 1 }
      (CompareAndSwapResult.success updated, assocSet m todoId updated)

/-! ## Monotonic timestamp generator (`apps/server/src/utils/time.ts`) -/

/-- One call of `getMonotonicISOString` with wall clock reading `nowMs` and
module state `lastMs` (`lastMonotonicTimestampMs`): the new state, which is
also the millisecond value rendered by `new Date(ms).toISOString()` and
returned.  `Date.prototype.toISOString` is strictly monotone on millisecond
values, so strict growth of the returned strings is exactly strict growth of
these values. -/
def monotonicStep (nowMs lastMs : Nat) : Nat :=
  if nowMs ≤ lastMs then lastMs + 1 else nowMs

/-- The millisecond values returned by successive calls of
`getMonotonicISOString`, for an arbitrary sequence of `Date.now()` readings. -/
def monotonicRun (lastMs : Nat) : List Nat → List Nat
  | [] => []
  | now :: rest =>
    monotonicStep now lastMs :: monotonicRun (monotonicStep now lastMs) rest

/-! ## Server store: cursor-filtered listing (`apps/server/src/store.ts`) -/

/-- The cursor argument of `getTodosForList`
(`{ updatedAt?: string; todoId?: string }`), also the shape the route builds
from a decoded sync token. -/
structure SyncCursor where
  updatedAt : Option String := none
  todoId : Option String := none
deriving DecidableEq, Repr

/-- `isTodoAfterCursor(todo, cursor)`: composite `(updatedAt, id)` comparison.
JavaScript string `>` is modelled by the lexicographic order on `String`. -/
def isTodoAfterCursor (todo : Todo) (cursorUpdatedAt cursorTodoId : String) : Bool :=
  if cursorUpdatedAt < todo.updatedAt then true
  else if todo.updatedAt = cursorUpdatedAt ∧ cursorTodoId < todo.id then true
  else false

/-- The cursor filter inside `getTodosForList`'s loop: `if (cursor?.updatedAt)`
guards the filter, so a missing cursor, a missing `updatedAt`, or an empty
(falsy) `updatedAt` string all disable filtering; `cursor.todoId ?? ''`
defaults the id component. -/
def cursorFilterKeep (cursor : Option SyncCursor) (todo : Todo) : Bool :=
  match cursor with
  | none => true
  | some c =>
    match c.updatedAt with
    | none => true
    | some u => if u = "" then true else isTodoAfterCursor todo u (c.todoId.getD "")

/-- The `le` relation realised by the comparator passed to `result.sort`:
`compare(a, b) ≤ 0`, i.e. ascending `(updatedAt, id)`. -/
def todoSortLe (a b : Todo) : Bool :=
  if a.updatedAt = b.updatedAt then decide (a.id ≤ b.id) else decide (a.updatedAt < b.updatedAt)

/-- The server store's state: the private `todos` map and the `todosByList`
secondary index (`listId → Set<todoId>`, a JS insertion-ordered set modelled
as a list). -/
structure Store where
  todos : TodoMap
  todosByList : List (String × List String)
deriving DecidableEq, Repr

/-- The body of `getTodosForList`'s collection loop for one id of the list's
id set: look the id up in the `todos` map (skipping dangling ids) and apply
the cursor filter. -/
def collectTodo (s : Store) (cursor : Option SyncCursor) (todoId : String) : Option Todo :=
  match lookupTodo s.todos todoId with
  | none => none
  | some todo =>
    if cursorFilterKeep cursor todo then some todo else none

/-- `getTodosForList(listId, cursor?)`: iterate the list's id set through
`collectTodo` and sort the hits by `(updatedAt, id)` ascending
(`Array.prototype.sort` with the source's comparator, modelled by the stable
`mergeSort`). -/
def getTodosForList (s : Store) (listId : String) (cursor : Option SyncCursor) : List Todo :=
  match lookupAssoc s.todosByList listId with
  | none => []
  | some todoIds =>
    let result := todoIds.filterMap (collectTodo s cursor)
    result.mergeSort todoSortLe

/-- Specification-side view: the todos stored for a list, read off the `todos`
map alone ("the todos of that list"). -/
def listTodos (s : Store) (listId : String) : List Todo :=
  (s.todos.map Prod.snd).filter (fun t => t.listId == listId)

/-- Specification-side view: the composite key `(updatedAt, id)` of `t`
strictly exceeds the cursor position, in the lexicographic sense. -/
def strictlyAfterCursor (cursorUpdatedAt cursorTodoId : String) (t : Todo) : Prop :=
  cursorUpdatedAt < t.updatedAt ∨ (cursorUpdatedAt = t.updatedAt ∧ cursorTodoId < t.id)

instance (u d : String) (t : Todo) : Decidable (strictlyAfterCursor u d t) := by
  unfold strictlyAfterCursor
  infer_instance

/-- Specification-side view of the cursor filter: keep exactly the todos
strictly after the cursor, and everything when the cursor is absent. -/
def specKeep (cursor : Option SyncCursor) (t : Todo) : Bool :=
  match cursor with
  | none => true
  | some c => decide (strictlyAfterCursor (c.updatedAt.getD "") (c.todoId.getD "") t)

/-- Well-formedness of the server store, maintained by `createTodo` /
`compareAndSwapTodo`: map keys are unique and equal the stored todo's `id`,
the per-list id sets are duplicate-free, and the `todosByList` index is Sound
and complete for the `todos` map. -/
def storeWF (s : Store) : Prop :=
  ((s.todos.map Prod.fst).Nodup) ∧
  (∀ p ∈ s.todos, p.2.id = p.1) ∧
  ((s.todosByList.map Prod.fst).Nodup) ∧
  (∀ q ∈ s.todosByList, q.2.Nodup) ∧
  (∀ q ∈ s.todosByList, ∀ tid ∈ q.2, ∀ p ∈ s.todos, p.1 = tid → p.2.listId = q.1) ∧
  (∀ p ∈ s.todos, p.1 ∈ (lookupAssoc s.todosByList p.2.listId).getD [])

instance (s : Store) : Decidable (storeWF s) := by
  unfold storeWF
  infer_instance

/-! ## Client-side todo and sync state (`apps/web/src/lib/sync/state.ts`) -/

/-- The `Todo` value as the client merge module handles it.  The client
compares `createdAt`/`updatedAt` through `Date` values (`Date.parse`,
`new Date(x) >= new Date(y)`), so timestamps are modelled as their parsed
epoch milliseconds.  Invalid-date fallbacks are outside the model: every
timestamp the system produces is a valid ISO string. -/
structure CTodo where
  id : String
  listId : String
  title : String
  state : TodoState
  createdBy : String
  createdAt : Nat
  updatedAt : Nat
  version : Nat
  deletedAt : Option Nat := none
deriving DecidableEq, Repr

/-- `StateChangeMutation` (`type: 'state-change'`, the only variant of
`PendingMutation` in this build): target todo, desired next state, applied-at
timestamp (`appliedAt` is an ISO string in the source, modelled as parsed
epoch milliseconds like every client-side timestamp). -/
structure PendingMutation where
  id : String
  todoId : String
  nextState : TodoState
  appliedAt : Nat
deriving DecidableEq, Repr

/-- The modelled part of `state.ts`'s module-level `SyncState` singleton —
`serverState` (server-confirmed todos) and `pendingMutations` (per-todo FIFO
queues) — together with the display todo list held by the `todosStore`, which
`updateDisplayTodos` reads and writes.  `activeRuns` and `runGeneration` are
not carried: run bookkeeping happens outside the loop body modelled here, and
the generation check enters `processMutationsStep` as the `runValid` flag. -/
structure ClientState where
  serverState : List (String × CTodo)
  pendingMutations : List (String × List PendingMutation)
  displayTodos : List CTodo
deriving DecidableEq, Repr

/-- `getServerTodo(todoId)`: `state.serverState.get(todoId)`. -/
def getServerTodo (st : ClientState) (todoId : String) : Option CTodo :=
  lookupAssoc st.serverState todoId

/-- `setServerTodo(todo)`: `state.serverState.set(todo.id, todo)`. -/
def setServerTodo (st : ClientState) (todo : CTodo) : ClientState :=
  { st with serverState := assocSet st.serverState todo.id todo }

/-- `getAllServerTodos()`: `[...state.serverState.values()]` in insertion
order. -/
def getAllServerTodos (st : ClientState) : List CTodo :=
  st.serverState.map Prod.snd

/-- `getAllPendingMutations(todoId)`:
`state.pendingMutations.get(todoId) ?? []`. -/
def getAllPendingMutations (st : ClientState) (todoId : String) : List PendingMutation :=
  (lookupAssoc st.pendingMutations todoId).getD []

/-- `getNextMutation(todoId)`: `queue?.at(0)` — the head of the queue when the
key is present and the queue nonempty. -/
def getNextMutation (st : ClientState) (todoId : String) : Option PendingMutation :=
  (lookupAssoc st.pendingMutations todoId).bind List.head?

/-- `dequeueMutation(todoId)`: a missing or empty queue has its key deleted;
otherwise the head is shifted off, and a queue that becomes empty also has its
key deleted. -/
def dequeueMutation (st : ClientState) (todoId : String) : ClientState :=
  match lookupAssoc st.pendingMutations todoId with
  | none => { st with pendingMutations := assocDelete st.pendingMutations todoId }
  | some queue =>
    if queue.length = 0 then
      { st with pendingMutations := assocDelete st.pendingMutations todoId }
    else if queue.tail.length = 0 then
      { st with pendingMutations := assocDelete st.pendingMutations todoId }
    else
      { st with pendingMutations := assocSet st.pendingMutations todoId queue.tail }

/-! ## Merge algorithm (`apps/web/src/lib/sync/merge.ts`) -/

/-- `isOptimisticTodo(todo)`: created locally, not yet confirmed. -/
def isOptimisticTodo (t : CTodo) : Bool :=
  t.version == 0

/-- `isNewerThan(incoming, existing)`.  The source compares
`new Date(incoming.updatedAt) >= new Date(existing.updatedAt)`; on parsed
millisecond values that is `≥`. -/
def isNewerThan (incoming : CTodo) (existing : Option CTodo) : Bool :=
  match existing with
  | none => true
  | some e =>
    if incoming.version > e.version then true
    else if incoming.version = e.version then decide (incoming.updatedAt ≥ e.updatedAt)
    else false

/-- The `todoToStore` value inside `updateServerStateEntry`:
`preserveCreatedAt && todo.createdAt !== preserveCreatedAt` rewrites the
incoming creation time to the preserved one. -/
def todoToStore (todo : CTodo) (preserveCreatedAt : Option Nat) : CTodo :=
  match preserveCreatedAt with
  | none => todo
  | some p => if todo.createdAt ≠ p then { todo with createdAt := p } else todo

/-- `updateServerStateEntry(todo, preserveCreatedAt)`: store the (possibly
creation-time-rewritten) incoming todo iff it is newer than the cached one. -/
def updateServerStateEntry (st : ClientState) (todo : CTodo)
    (preserveCreatedAt : Option Nat) : ClientState :=
  if isNewerThan (todoToStore todo preserveCreatedAt) (getServerTodo st todo.id) then
    setServerTodo st (todoToStore todo preserveCreatedAt)
  else st

/-- The `le` relation realised by `compareByCreatedAt`: `compare(a, b) ≤ 0`,
ascending `(createdAt, id)` (the invalid-date fallback is unreachable on
parsed milliseconds). -/
def compareByCreatedAtLe (a b : CTodo) : Bool :=
  if a.createdAt = b.createdAt then decide (a.id ≤ b.id) else decide (a.createdAt < b.createdAt)

/-- One step of the `mutations.reduce` in `deriveDisplayTodos` for a
`state-change` mutation. -/
def applyPendingMutation (acc : CTodo) (m : PendingMutation) : CTodo :=
  { acc with state := m.nextState, updatedAt := m.appliedAt }

/-- `deriveDisplayTodos()`: each cached todo with its pending mutations
applied in order (`reduce` over the queue; the empty-queue early return equals
the empty fold). -/
def deriveDisplayTodos (st : ClientState) : List CTodo :=
  (getAllServerTodos st).map (fun todo =>
    (getAllPendingMutations st todo.id).foldl applyPendingMutation todo)

/-- One iteration of the loop that builds `optimisticCreatedAtById` in
`mergeTodos`: record the creation time of a local optimistic todo. -/
def optimisticStep (m : List (String × Nat)) (t : CTodo) : List (String × Nat) :=
  if isOptimisticTodo t then assocSet m t.id t.createdAt else m

/-- The `optimisticCreatedAtById` map built at the top of `mergeTodos`:
creation times of the local optimistic todos, keyed by id (`Map.set`,
later entries winning). -/
def collectOptimisticCreatedAt (localTodos : List CTodo) : List (String × Nat) :=
  localTodos.foldl optimisticStep ([] : List (String × Nat))

/-- The body of `mergeTodos`'s step-1 loop for one incoming todo:
`preserveCreatedAt = existing?.createdAt ?? optimisticCreatedAtById.get(id)`,
then `updateServerStateEntry`. -/
def mergeIncomingTodo (optimisticCreatedAtById : List (String × Nat))
    (acc : ClientState) (incomingTodo : CTodo) : ClientState :=
  let preserveCreatedAt :=
    match getServerTodo acc incomingTodo.id with
    | some existing => some existing.createdAt
    | none => lookupAssoc optimisticCreatedAtById incomingTodo.id
  updateServerStateEntry acc incomingTodo preserveCreatedAt

/-- `mergeTodos(local, incoming)`: update the server cache with the incoming
todos (newest wins, optimistic creation times preserved), keep optimistic
todos not yet confirmed, derive and sort the display todos.  The source
mutates the module state; here the updated state is returned with the display
list. -/
def mergeTodos (st : ClientState) (localTodos incoming : List CTodo) :
    ClientState × List CTodo :=
  let optimisticCreatedAtById := collectOptimisticCreatedAt localTodos
  let st1 := incoming.foldl (mergeIncomingTodo optimisticCreatedAtById) st
  let optimisticTodos := localTodos.filter
    (fun t => isOptimisticTodo t && (getServerTodo st1 t.id).isNone)
  (st1, (deriveDisplayTodos st1 ++ optimisticTodos).mergeSort compareByCreatedAtLe)

/-- Specification-side view of the merge decision (claim C5): the incoming
entity wins iff no cached copy exists, or its version is strictly greater, or
versions tie and its update time is greater-or-equal. -/
def incomingSupersedes (incoming : CTodo) (existing : Option CTodo) : Bool :=
  match existing with
  | none => true
  | some cached =>
    decide (incoming.version > cached.version) ||
    (incoming.version == cached.version && decide (incoming.updatedAt ≥ cached.updatedAt))

/-! ## Mutation processor (`apps/web/src/lib/sync/processor.ts`) -/

/-- `ValidationResult` from the processor module. -/
inductive ValidationResult
  | proceed
  | done
  | conflict (message : String)
deriving DecidableEq, Repr

/-- `ExecutionResult` from the processor module. -/
inductive ExecutionResult
  | success (todo : CTodo)
  | versionConflict (todo : CTodo)
  | invalidTransition
  | authError
  | networkError (message : String)
  | cancelled
deriving DecidableEq, Repr

/-- `DEFAULT_RETRIES` (`packages/core/src/utils/retry.ts`). -/
def DEFAULT_RETRIES : Nat := 10

/-- `DEFAULT_FACTOR`. -/
def DEFAULT_FACTOR : Nat := 2

/-- `DEFAULT_MIN_TIMEOUT` (milliseconds). -/
def DEFAULT_MIN_TIMEOUT : Nat := 1000

/-- The delay computed by the timer `createBackoff` returns:
`Math.min(minTimeout * factor ** (attempt - 1), maxTimeout)`;
`maxTimeout = none` models the default `Infinity` cap. -/
def backoffDelay (factor minTimeout : Nat) (maxTimeout : Option Nat) (attempt : Nat) : Nat :=
  match maxTimeout with
  | none => minTimeout * factor ^ (attempt - 1)
  | some mt => min (minTimeout * factor ^ (attempt - 1)) mt

/-- The delay of `DEFAULT_BACKOFF = createBackoff()` at a given attempt. -/
def defaultBackoffDelay (attempt : Nat) : Nat :=
  backoffDelay DEFAULT_FACTOR DEFAULT_MIN_TIMEOUT none attempt

/-- `validateMutation(mutation)` checked against the cached server state
(`if (serverTodo.deletedAt)` is truthy exactly on a present timestamp). -/
def validateMutation (st : ClientState) (mutation : PendingMutation) : ValidationResult :=
  match getServerTodo st mutation.todoId with
  | none => ValidationResult.done
  | some serverTodo =>
    if serverTodo.deletedAt.isSome then ValidationResult.done
    else if serverTodo.state = mutation.nextState then ValidationResult.done
    else if isValidTransition serverTodo.state mutation.nextState = false then
      ValidationResult.conflict ("Conflict, change not applied")
    else ValidationResult.proceed

/-- `executeMutation(mutation, runGeneration)`.  The transport call and its
outcome classification (including cancellation observed after the `await`) are
abstracted into `api`, which receives the mutation and the expected version
read from the cached todo (`serverTodo.version`). -/
def executeMutation (hasUser : Bool) (st : ClientState) (mutation : PendingMutation)
    (api : PendingMutation → Nat → ExecutionResult) : ExecutionResult :=
  match getServerTodo st mutation.todoId with
  | none => ExecutionResult.cancelled
  | some serverTodo =>
    if hasUser then api mutation serverTodo.version else ExecutionResult.cancelled

/-- `updateDisplayTodos(serverTodos)`: merge into the cache and re-derive the
display list held by the todos store. -/
def updateDisplayTodos (st : ClientState) (serverTodos : List CTodo) : ClientState :=
  let merged := mergeTodos st st.displayTodos serverTodos
  { merged.1 with displayTodos := merged.2 }

/-- Whether one iteration of `processMutations` exits the run or loops. -/
inductive Control
  | exitRun
  | continueLoop
deriving DecidableEq, Repr

/-- The observable outcome of one iteration of the `processMutations` loop:
the client state afterwards, whether the loop continues, the retry counter,
and the backoff delay awaited (if any). -/
structure IterResult where
  state : ClientState
  control : Control
  attempt : Nat
  backoffMs : Option Nat
deriving DecidableEq, Repr

/-- One iteration of the `processMutations(todoId, runGeneration)` loop:
check → peek → validate → execute → handle.  `runValid` is the loop-top
generation check, `canProc` is `canProcess()`, `api` abstracts the transport
(as in `executeMutation`), and `syncEffect` abstracts the cache refresh done
by `syncOnce()`. -/
def processMutationsStep (runValid canProc hasUser : Bool)
    (api : PendingMutation → Nat → ExecutionResult)
    (syncEffect : ClientState → ClientState)
    (st : ClientState) (todoId : String) (attempt : Nat) : IterResult :=
  if runValid = false then ⟨st, Control.exitRun, attempt, none⟩
  else if canProc = false then ⟨st, Control.exitRun, attempt, none⟩
  else
    match getNextMutation st todoId with
    | none => ⟨st, Control.exitRun, attempt, none⟩
    | some mutation =>
      match validateMutation st mutation with
      | ValidationResult.done =>
        ⟨updateDisplayTodos (dequeueMutation st todoId) [], Control.continueLoop, attempt, none⟩
      | ValidationResult.conflict _ =>
        ⟨updateDisplayTodos (dequeueMutation st todoId) [], Control.continueLoop, attempt, none⟩
      | ValidationResult.proceed =>
        match executeMutation hasUser st mutation api with
        | ExecutionResult.networkError _ =>
          if attempt ≥ DEFAULT_RETRIES then ⟨st, Control.exitRun, attempt, none⟩
          else ⟨st, Control.continueLoop, attempt + 1, some (defaultBackoffDelay attempt)⟩
        | ExecutionResult.success todo =>
          ⟨updateDisplayTodos (dequeueMutation st mutation.todoId) [todo],
            Control.continueLoop, 1, none⟩
        | ExecutionResult.versionConflict todo =>
          ⟨updateDisplayTodos st [todo], Control.continueLoop, 1, none⟩
        | ExecutionResult.invalidTransition =>
          ⟨syncEffect st, Control.continueLoop, 1, none⟩
        | ExecutionResult.authError => ⟨st, Control.exitRun, 1, none⟩
        | ExecutionResult.cancelled => ⟨st, Control.exitRun, 1, none⟩

/-! ## Sync token (`packages/core/src/utils/sync-token.ts`) and the todos
route's cursor handling (`apps/server/src/routes/todos.ts`) -/

/-- JSON values, as produced by `JSON.parse` (object fields are kept
duplicate-free, later duplicates having already won during parsing). -/
inductive Json
  | null
  | bool (b : Bool)
  | num (n : Int)
  | str (s : String)
  | arr (items : List Json)
  | obj (fields : List (String × Json))
deriving Repr

/-- `SyncTokenPayload`: `lastUpdatedAt` plus the optional tie-breaker id. -/
structure SyncTokenPayload where
  lastUpdatedAt : String
  lastId : Option String := none
deriving DecidableEq, Repr

/-- The shape check inside `decodeSyncToken`: a non-null object whose
`lastUpdatedAt` is a string and whose `lastId`, when present, is a string
(`typeof payload === 'object'` with the `in`/`typeof` guards; arrays and
`null` fail the guards). -/
def validateSyncTokenPayload (payload : Json) : Option SyncTokenPayload :=
  match payload with
  | Json.obj fields =>
    match lookupAssoc fields ("lastUpdatedAt") with
    | some (Json.str u) =>
      match lookupAssoc fields ("lastId") with
      | none => some { lastUpdatedAt := u }
      | some (Json.str i) => some { lastUpdatedAt := u, lastId := some i }
      | some _ => none
    | _ => none
  | _ => none

/-- `decodeSyncToken(token)`.  `parseJson` abstracts
`Buffer.from(token, 'base64').toString('utf-8')` followed by `JSON.parse`,
with any thrown error as `none` (the `try/catch` returns `null`). -/
def decodeSyncToken (parseJson : String → Option Json) (token : String) :
    Option SyncTokenPayload :=
  match parseJson token with
  | none => none
  | some payload => validateSyncTokenPayload payload

/-- The JSON value `JSON.stringify` serialises for a payload object: the
`lastId` key is omitted when the field is `undefined`. -/
def payloadToJson (p : SyncTokenPayload) : Json :=
  Json.obj
    (("lastUpdatedAt", Json.str p.lastUpdatedAt) ::
      (match p.lastId with
       | none => []
       | some i => [("lastId", Json.str i)]))

/-- `encodeSyncToken(payload)`: base64 of the JSON text.  `stringifyJson` and
`base64Encode` abstract `JSON.stringify` and `Buffer`/`btoa`. -/
def encodeSyncToken (stringifyJson : Json → String) (base64Encode : String → String)
    (p : SyncTokenPayload) : String :=
  base64Encode (stringifyJson (payloadToJson p))

/-- The field access used to state malformedness of a decoded payload. -/
def jsonField (j : Json) (k : String) : Option Json :=
  match j with
  | Json.obj fields => lookupAssoc fields k
  | _ => none

/-- Specification-side view: the decoded JSON payload is malformed — it has no
string `lastUpdatedAt`, or it has a non-string `lastId`. -/
def malformedPayload (j : Json) : Prop :=
  (¬ ∃ s, jsonField j ("lastUpdatedAt") = some (Json.str s)) ∨
  (∃ v, jsonField j ("lastId") = some v ∧ ∀ s, v ≠ Json.str s)

/-- The todos route's cursor computation for a delta-sync request:
`if (syncToken)` (falsy on absent or empty), decode, and on a successful
decode build the store cursor; a failed decode leaves the cursor `undefined`. -/
def routeCursor (parseJson : String → Option Json) (syncToken : Option String) :
    Option SyncCursor :=
  match syncToken with
  | none => none
  | some token =>
    if token = "" then none
    else
      match decodeSyncToken parseJson token with
      | none => none
      | some payload =>
        match payload.lastId with
        | none => some { updatedAt := some payload.lastUpdatedAt }
        | some lastId =>
          some { updatedAt := some payload.lastUpdatedAt, todoId := some lastId }

/-! # Theorems -/

/-! ## Helper lemmas about association lists -/

theorem lookupAssoc_nil {α : Type} (k : String) : lookupAssoc ([] : List (String × α)) k = none := by
  simp [lookupAssoc]

theorem lookupAssoc_cons {α : Type} (p : String × α) (rest : List (String × α)) (k : String) :
    lookupAssoc (p :: rest) k = if p.1 = k then some p.2 else lookupAssoc rest k := by
  by_cases h : p.1 = k
  · simp [lookupAssoc, List.find?_cons_of_pos, h]
  · simp [lookupAssoc, List.find?_cons_of_neg, h]

theorem lookupAssoc_assocSet_self {α : Type} (m : List (String × α)) (k : String) (v : α) :
    lookupAssoc (assocSet m k v) k = some v := by
  induction m with
  | nil => simp [assocSet, lookupAssoc_cons, lookupAssoc_nil]
  | cons p rest ih =>
    by_cases h : p.1 = k
    · simp [assocSet, h, lookupAssoc_cons]
    · simp [assocSet, h, lookupAssoc_cons, ih]

theorem lookupAssoc_assocSet_ne {α : Type} (m : List (String × α)) (k k2 : String) (v : α)
    (h : k ≠ k2) : lookupAssoc (assocSet m k v) k2 = lookupAssoc m k2 := by
  induction m with
  | nil => simp [assocSet, lookupAssoc_cons, lookupAssoc_nil, h]
  | cons p rest ih =>
    by_cases hp : p.1 = k
    · subst hp
      simp [assocSet, lookupAssoc_cons, h]
    · simp [assocSet, hp, lookupAssoc_cons, ih]

/-! ## C4: the state machine's valid transitions -/

/-- Claim C4: `isValidTransition(from, to)` returns true exactly for the four
ordered pairs (TODO, ONGOING), (ONGOING, TODO), (ONGOING, DONE),
(DONE, ONGOING), and false for every other pair, including self-transitions
and both directions of the TODO↔DONE skip. -/
theorem isValidTransition_characterization :
    ∀ a b : TodoState,
      isValidTransition a b = true ↔
        (a, b) ∈ [(TodoState.TODO, TodoState.ONGOING),
                  (TodoState.ONGOING, TodoState.TODO),
                  (TodoState.ONGOING, TodoState.DONE),
                  (TodoState.DONE, TodoState.ONGOING)] := by
  decide

/-! ## C2: monotonic timestamp generator -/

theorem monotonicStep_gt (nowMs lastMs : Nat) : lastMs < monotonicStep nowMs lastMs := by
  unfold monotonicStep
  split
  · exact Nat.lt_succ_self lastMs
  · omega

theorem monotonicRun_chain (l : List Nat) (lastMs : Nat) :
    List.Chain (· < ·) lastMs (monotonicRun lastMs l) := by
  induction l generalizing lastMs with
  | nil => exact List.Chain.nil
  | cons now rest ih =>
    exact List.Chain.cons (monotonicStep_gt now lastMs) (ih (monotonicStep now lastMs))

/-- Claim C2: every call of the monotonic timestamp generator returns a
timestamp strictly greater than every timestamp previously returned in this
process: for any sequence of wall-clock readings (including readings within
the same millisecond or moving backwards), the sequence of returned timestamps
is strictly increasing. -/
theorem getMonotonicISOString_strictMono (lastMs : Nat) (clockReadings : List Nat) :
    (monotonicRun lastMs clockReadings).Pairwise (· < ·) :=
  ((List.chain_iff_pairwise.mp (monotonicRun_chain clockReadings lastMs)).of_cons)

/-! ## C1: compare-and-swap on the server store -/

/-- Claim C1: `compareAndSwapTodo` returns not-found when no todo with the id
is stored; returns a conflict carrying the stored todo and leaves the store
unchanged when the stored version differs from the expected version; and when
the versions match it applies exactly the given field updates, sets the
version to `expectedVersion + 1`, stores the updated todo, and returns it. -/
theorem compareAndSwapTodo_spec (m : TodoMap) (todoId : String) (expectedVersion : Nat)
    (updates : TodoUpdates) :
    (lookupTodo m todoId = none →
      compareAndSwapTodo m todoId expectedVersion updates =
        (CompareAndSwapResult.notFound, m)) ∧
    (∀ t, lookupTodo m todoId = some t → t.version ≠ expectedVersion →
      compareAndSwapTodo m todoId expectedVersion updates =
        (CompareAndSwapResult.conflict t, m)) ∧
    (∀ t, lookupTodo m todoId = some t → t.version = expectedVersion →
      ∃ u,
        compareAndSwapTodo m todoId expectedVersion updates =
          (CompareAndSwapResult.success u, assocSet m todoId u) ∧
        lookupTodo (compareAndSwapTodo m todoId expectedVersion updates).2 todoId = some u ∧
        u.id = t.id ∧ u.listId = t.listId ∧ u.createdBy = t.createdBy ∧
        u.createdAt = t.createdAt ∧
        u.title = updates.title.getD t.title ∧
        u.state = updates.state.getD t.state ∧
        u.updatedAt = updates.updatedAt.getD t.updatedAt ∧
        u.deletedAt = updates.deletedAt.getD t.deletedAt ∧
        u.version = expectedVersion + 1) := by
  refine ⟨?_, ?_, ?_⟩
  · intro h
    simp [compareAndSwapTodo, h]
  · intro t ht hv
    simp [compareAndSwapTodo, ht, hv]
  · intro t ht hv
    have hstep : compareAndSwapTodo m todoId expectedVersion updates =
        (CompareAndSwapResult.success
           { applyTodoUpdates t updates with version := expectedVersion + 1 },
         assocSet m todoId
           { applyTodoUpdates t updates with version := expectedVersion + 1 }) := by
      simp [compareAndSwapTodo, ht, hv]
    refine ⟨{ applyTodoUpdates t updates with version := expectedVersion + 1 },
      hstep, ?_, ?_, ?_, ?_, ?_, ?_, ?_, ?_, ?_, ?_⟩
    · rw [hstep]
      exact lookupAssoc_assocSet_self m todoId _
    all_goals simp [applyTodoUpdates]

/-- Witness for C1: a concrete successful compare-and-swap. -/
theorem compareAndSwapTodo_spec_witness :
    ∃ u,
      compareAndSwapTodo
          [("a", { id := "a", listId := "l", title := "t", state := TodoState.TODO,
                   createdBy := "u1", createdAt := "2024-01-01T00:00:00.000Z",
                   updatedAt := "2024-01-01T00:00:00.000Z", version := 1 })]
          "a" 1 { state := some TodoState.ONGOING } =
        (CompareAndSwapResult.success u,
         assocSet
           [("a", { id := "a", listId := "l", title := "t", state := TodoState.TODO,
                    createdBy := "u1", createdAt := "2024-01-01T00:00:00.000Z",
                    updatedAt := "2024-01-01T00:00:00.000Z", version := 1 })]
           "a" u) ∧
      lookupTodo
          (compareAndSwapTodo
            [("a", { id := "a", listId := "l", title := "t", state := TodoState.TODO,
                     createdBy := "u1", createdAt := "2024-01-01T00:00:00.000Z",
                     updatedAt := "2024-01-01T00:00:00.000Z", version := 1 })]
            "a" 1 { state := some TodoState.ONGOING }).2 "a" = some u ∧
      u.id = "a" ∧ u.listId = "l" ∧ u.createdBy = "u1" ∧
      u.createdAt = "2024-01-01T00:00:00.000Z" ∧
      u.title = (some "t").getD "t" ∧
      u.state = (some TodoState.ONGOING).getD TodoState.TODO ∧
      u.updatedAt = (some "2024-01-01T00:00:00.000Z").getD "2024-01-01T00:00:00.000Z" ∧
      u.deletedAt = (none : Option (Option String)).getD none ∧
      u.version = 2 := by
  have h :=
    (compareAndSwapTodo_spec
      [("a", { id := "a", listId := "l", title := "t", state := TodoState.TODO,
               createdBy := "u1", createdAt := "2024-01-01T00:00:00.000Z",
               updatedAt := "2024-01-01T00:00:00.000Z", version := 1 })]
      "a" 1 { state := some TodoState.ONGOING }).2.2
      { id := "a", listId := "l", title := "t", state := TodoState.TODO,
        createdBy := "u1", createdAt := "2024-01-01T00:00:00.000Z",
        updatedAt := "2024-01-01T00:00:00.000Z", version := 1 }
      (by decide) (by decide)
  obtain ⟨u, h1, h2, h3, h4, h5, h6, h7, h8, h9, h10, h11⟩ := h
  exact ⟨u, h1, h2, h3, h4, h5, h6, h7, h8, h9, h10, h11⟩

/-! ## C5: merge decision rule -/

theorem todoToStore_some (n : CTodo) (c : Nat) :
    todoToStore n (some c) = { n with createdAt := c } := by
  by_cases h : n.createdAt ≠ c
  · simp [todoToStore, h]
  · have hc : n.createdAt = c := not_ne_iff.mp h
    subst hc
    simp [todoToStore]

theorem todoToStore_fields (t : CTodo) (p : Option Nat) :
    (todoToStore t p).id = t.id ∧ (todoToStore t p).version = t.version ∧
      (todoToStore t p).updatedAt = t.updatedAt := by
  cases p with
  | none => exact ⟨rfl, rfl, rfl⟩
  | some c => rw [todoToStore_some]; exact ⟨rfl, rfl, rfl⟩

theorem isNewerThan_todoToStore (t : CTodo) (p : Option Nat) (existing : Option CTodo) :
    isNewerThan (todoToStore t p) existing = incomingSupersedes t existing := by
  obtain ⟨hid, hv, hu⟩ := todoToStore_fields t p
  cases existing with
  | none => rfl
  | some e =>
    simp only [isNewerThan, incomingSupersedes, hv, hu]
    by_cases h1 : t.version > e.version
    · simp [h1]
    · by_cases h2 : t.version = e.version
      · simp [h1, h2]
      · simp [h1, h2]

theorem updateServerStateEntry_eq (st : ClientState) (t : CTodo) (p : Option Nat) :
    updateServerStateEntry st t p =
      if incomingSupersedes t (getServerTodo st t.id) then
        setServerTodo st (todoToStore t p)
      else st := by
  unfold updateServerStateEntry
  rw [isNewerThan_todoToStore]

theorem getServerTodo_setServerTodo_self (st : ClientState) (t : CTodo) :
    getServerTodo (setServerTodo st t) t.id = some t := by
  unfold getServerTodo setServerTodo
  exact lookupAssoc_assocSet_self st.serverState t.id t

/-- Claim C5: in the merge algorithm, an incoming entity replaces the cached
copy exactly when no cached copy with its id exists, or its version is
strictly greater, or the versions are equal and its `updatedAt` is
greater-or-equal; in every other case the cache is left entirely unchanged.
When it wins, the stored value is the (possibly creation-time-preserving)
incoming todo. -/
theorem updateServerStateEntry_supersedes_iff (st : ClientState) (t : CTodo) (p : Option Nat) :
    (updateServerStateEntry st t p =
      if incomingSupersedes t (getServerTodo st t.id) then
        setServerTodo st (todoToStore t p)
      else st) ∧
    (getServerTodo (updateServerStateEntry st t p) t.id =
      if incomingSupersedes t (getServerTodo st t.id) then
        some (todoToStore t p)
      else getServerTodo st t.id) := by
  refine ⟨updateServerStateEntry_eq st t p, ?_⟩
  rw [updateServerStateEntry_eq st t p]
  by_cases h : incomingSupersedes t (getServerTodo st t.id) = true
  · rw [if_pos h, if_pos h]
    have hid : (todoToStore t p).id = t.id := (todoToStore_fields t p).1
    rw [← hid]
    exact getServerTodo_setServerTodo_self st (todoToStore t p)
  · rw [if_neg h, if_neg h]

/-! ## C9: malformed sync tokens mean full resync -/

theorem validateSyncTokenPayload_malformed (j : Json) (h : malformedPayload j) :
    validateSyncTokenPayload j = none := by
  cases j with
  | null => rfl
  | bool b => rfl
  | num n => rfl
  | str s => rfl
  | arr items => rfl
  | obj fields =>
    rcases h with h1 | h2
    · cases hu : lookupAssoc fields ("lastUpdatedAt") with
      | none => simp [validateSyncTokenPayload, hu]
      | some v =>
        cases v with
        | str sv => exact absurd ⟨sv, by simp [jsonField, hu]⟩ h1
        | null => simp [validateSyncTokenPayload, hu]
        | bool b => simp [validateSyncTokenPayload, hu]
        | num n => simp [validateSyncTokenPayload, hu]
        | arr items => simp [validateSyncTokenPayload, hu]
        | obj fs => simp [validateSyncTokenPayload, hu]
    · obtain ⟨v, hv, hvs⟩ := h2
      simp only [jsonField] at hv
      cases hu : lookupAssoc fields ("lastUpdatedAt") with
      | none => simp [validateSyncTokenPayload, hu]
      | some u =>
        cases u with
        | str su =>
          cases v with
          | str sv => exact absurd rfl (hvs sv)
          | null => simp [validateSyncTokenPayload, hu, hv]
          | bool b => simp [validateSyncTokenPayload, hu, hv]
          | num n => simp [validateSyncTokenPayload, hu, hv]
          | arr items => simp [validateSyncTokenPayload, hu, hv]
          | obj fs => simp [validateSyncTokenPayload, hu, hv]
        | null => simp [validateSyncTokenPayload, hu]
        | bool b => simp [validateSyncTokenPayload, hu]
        | num n => simp [validateSyncTokenPayload, hu]
        | arr items => simp [validateSyncTokenPayload, hu]
        | obj fs => simp [validateSyncTokenPayload, hu]

/-- Claim C9: a delta-sync request whose sync token is undecodable (base64 or
JSON parsing fails) or malformed (no string `lastUpdatedAt`, or a non-string
`lastId`) is treated exactly as if no cursor had been supplied:
`decodeSyncToken` returns null, the route's cursor is the no-token cursor,
and the store fetch is the full (no-cursor) fetch. -/
theorem decodeSyncToken_malformed_full_resync
    (parseJson : String → Option Json) (token : String) (s : Store) (listId : String)
    (h : parseJson token = none ∨ ∃ j, parseJson token = some j ∧ malformedPayload j) :
    decodeSyncToken parseJson token = none ∧
    routeCursor parseJson (some token) = none ∧
    routeCursor parseJson (some token) = routeCursor parseJson none ∧
    getTodosForList s listId (routeCursor parseJson (some token)) =
      getTodosForList s listId none := by
  have hdec : decodeSyncToken parseJson token = none := by
    rcases h with h | ⟨j, hj, hmal⟩
    · simp [decodeSyncToken, h]
    · simp [decodeSyncToken, hj, validateSyncTokenPayload_malformed j hmal]
  have hroute : routeCursor parseJson (some token) = none := by
    unfold routeCursor
    by_cases he : token = ""
    · simp [he]
    · simp [he, hdec]
  exact ⟨hdec, hroute, by rw [hroute]; rfl, by rw [hroute]⟩

/-- Witness for C9: a token that parses to a JSON object with no
`lastUpdatedAt` field is treated as no cursor. -/
theorem decodeSyncToken_malformed_full_resync_witness :
    decodeSyncToken (fun _ => some (Json.obj [])) "bm90IGEgdG9rZW4=" = none ∧
    routeCursor (fun _ => some (Json.obj [])) (some "bm90IGEgdG9rZW4=") = none ∧
    routeCursor (fun _ => some (Json.obj [])) (some "bm90IGEgdG9rZW4=") =
      routeCursor (fun _ => some (Json.obj [])) none ∧
    getTodosForList { todos := [], todosByList := [] } "list-1"
        (routeCursor (fun _ => some (Json.obj [])) (some "bm90IGEgdG9rZW4=")) =
      getTodosForList { todos := [], todosByList := [] } "list-1" none :=
  decodeSyncToken_malformed_full_resync (fun _ => some (Json.obj []))
    "bm90IGEgdG9rZW4=" { todos := [], todosByList := [] } "list-1"
    (Or.inr ⟨Json.obj [], rfl, Or.inl (by simp [jsonField, lookupAssoc])⟩)

/-! ## C10: sync-token round trip -/

theorem validateSyncTokenPayload_payloadToJson (p : SyncTokenPayload) :
    validateSyncTokenPayload (payloadToJson p) = some p := by
  obtain ⟨u, lastId⟩ := p
  cases lastId with
  | none =>
    simp [payloadToJson, validateSyncTokenPayload, lookupAssoc_cons, lookupAssoc_nil]
  | some i =>
    have h1 : ("lastUpdatedAt" : String) ≠ "lastId" := by decide
    simp [payloadToJson, validateSyncTokenPayload, lookupAssoc_cons, lookupAssoc_nil, h1]

/-- Claim C10: decoding the encoding of any sync-token payload returns the
payload itself, given that the runtime base64 and JSON codecs invert each
other on it (the repository-side shape checks and the key layout of the
serialised object lose nothing). -/
theorem syncToken_roundtrip
    (stringifyJson : Json → String) (base64Encode : String → String)
    (base64Decode : String → Option String) (jsonParse : String → Option Json)
    (p : SyncTokenPayload)
    (hb : base64Decode (base64Encode (stringifyJson (payloadToJson p))) =
      some (stringifyJson (payloadToJson p)))
    (hj : jsonParse (stringifyJson (payloadToJson p)) = some (payloadToJson p)) :
    decodeSyncToken (fun tok => (base64Decode tok).bind jsonParse)
        (encodeSyncToken stringifyJson base64Encode p) = some p := by
  simp only [decodeSyncToken, encodeSyncToken]
  rw [hb]
  simp [hj, validateSyncTokenPayload_payloadToJson]

/-- Witness for C10: a concrete payload (with a tie-breaker id) survives the
round trip through concrete codecs. -/
theorem syncToken_roundtrip_witness :
    decodeSyncToken
        (fun tok => ((fun s => some s) tok).bind
          (fun _ => some (payloadToJson { lastUpdatedAt := "2024-01-01T00:00:00.000Z",
                                          lastId := some "todo-1" })))
        (encodeSyncToken (fun _ => "payload-text") (fun s => s)
          { lastUpdatedAt := "2024-01-01T00:00:00.000Z", lastId := some "todo-1" }) =
      some { lastUpdatedAt := "2024-01-01T00:00:00.000Z", lastId := some "todo-1" } :=
  syncToken_roundtrip (fun _ => "payload-text") (fun s => s) (fun s => some s)
    (fun _ => some (payloadToJson { lastUpdatedAt := "2024-01-01T00:00:00.000Z",
                                    lastId := some "todo-1" }))
    { lastUpdatedAt := "2024-01-01T00:00:00.000Z", lastId := some "todo-1" } rfl rfl

/-! ## C6: optimistic creation time survives confirmation -/

theorem updateServerStateEntry_other (st : ClientState) (t : CTodo) (p : Option Nat)
    (k : String) (hk : t.id ≠ k) :
    getServerTodo (updateServerStateEntry st t p) k = getServerTodo st k := by
  rw [updateServerStateEntry_eq]
  by_cases h : incomingSupersedes t (getServerTodo st t.id) = true
  · rw [if_pos h]
    unfold getServerTodo setServerTodo
    exact lookupAssoc_assocSet_ne st.serverState (todoToStore t p).id k (todoToStore t p)
      (by rw [(todoToStore_fields t p).1]; exact hk)
  · rw [if_neg h]

theorem mergeIncomingTodo_other (optMap : List (String × Nat)) (acc : ClientState)
    (t : CTodo) (k : String) (hk : t.id ≠ k) :
    getServerTodo (mergeIncomingTodo optMap acc t) k = getServerTodo acc k :=
  updateServerStateEntry_other acc t _ k hk

theorem mergeIncomingTodo_sets_entry (optMap : List (String × Nat)) (acc : ClientState)
    (n : CTodo) (c : Nat)
    (hnone : getServerTodo acc n.id = none)
    (hopt : lookupAssoc optMap n.id = some c) :
    getServerTodo (mergeIncomingTodo optMap acc n) n.id = some ({ n with createdAt := c }) := by
  unfold mergeIncomingTodo
  simp only [hnone, hopt]
  rw [updateServerStateEntry_eq, hnone]
  have hsup : incomingSupersedes n (none : Option CTodo) = true := rfl
  rw [hsup, if_pos rfl, todoToStore_some]
  exact getServerTodo_setServerTodo_self acc ({ n with createdAt := c })

theorem mergeIncomingTodo_keeps_entry (optMap : List (String × Nat)) (acc : ClientState)
    (n : CTodo) (c : Nat)
    (hsome : getServerTodo acc n.id = some ({ n with createdAt := c })) :
    getServerTodo (mergeIncomingTodo optMap acc n) n.id = some ({ n with createdAt := c }) := by
  unfold mergeIncomingTodo
  simp only [hsome]
  rw [updateServerStateEntry_eq, hsome]
  have hsup : incomingSupersedes n (some ({ n with createdAt := c })) = true := by
    simp [incomingSupersedes]
  rw [hsup, if_pos rfl, todoToStore_some]
  exact getServerTodo_setServerTodo_self acc ({ n with createdAt := c })

theorem optimisticCreatedAt_foldl (k : String) (v : Nat) :
    ∀ (l : List CTodo) (acc : List (String × Nat)),
      (∀ m ∈ l, m.id = k → isOptimisticTodo m = true → m.createdAt = v) →
      ((∃ m ∈ l, m.id = k ∧ isOptimisticTodo m = true) ∨ lookupAssoc acc k = some v) →
      lookupAssoc (l.foldl optimisticStep acc) k = some v := by
  intro l
  induction l with
  | nil =>
    intro acc _ h
    rcases h with ⟨m, hm, _⟩ | h
    · exact absurd hm (List.not_mem_nil m)
    · simpa using h
  | cons x rest ih =>
    intro acc hall h
    simp only [List.foldl_cons]
    apply ih
    · intro m hm
      exact hall m (List.mem_cons_of_mem x hm)
    · by_cases hx : isOptimisticTodo x = true
      · by_cases hk : x.id = k
        · right
          have hv : x.createdAt = v := hall x (List.mem_cons_self x rest) hk hx
          unfold optimisticStep
          rw [if_pos hx, hk, hv]
          exact lookupAssoc_assocSet_self acc k v
        · rcases h with ⟨m, hm, hmk, hmo⟩ | hacc
          · rcases List.mem_cons.mp hm with rfl | hm2
            · exact absurd hmk hk
            · exact Or.inl ⟨m, hm2, hmk, hmo⟩
          · right
            unfold optimisticStep
            rw [if_pos hx]
            rw [lookupAssoc_assocSet_ne acc x.id k x.createdAt hk]
            exact hacc
      · have hstep : optimisticStep acc x = acc := by
          unfold optimisticStep
          rw [if_neg hx]
        rcases h with ⟨m, hm, hmk, hmo⟩ | hacc
        · rcases List.mem_cons.mp hm with rfl | hm2
          · exact absurd hmo hx
          · exact Or.inl ⟨m, hm2, hmk, hmo⟩
        · right
          rw [hstep]
          exact hacc

theorem foldl_merge_entry (optMap : List (String × Nat)) (n : CTodo) (c : Nat)
    (hopt : lookupAssoc optMap n.id = some c) :
    ∀ (l : List CTodo) (acc : ClientState),
      (∀ m ∈ l, m.id = n.id → m = n) →
      ((n ∈ l ∧ getServerTodo acc n.id = none) ∨
        getServerTodo acc n.id = some ({ n with createdAt := c })) →
      getServerTodo (l.foldl (mergeIncomingTodo optMap) acc) n.id =
        some ({ n with createdAt := c }) := by
  intro l
  induction l with
  | nil =>
    intro acc _ h
    rcases h with ⟨hn, _⟩ | h
    · exact absurd hn (List.not_mem_nil n)
    · simpa using h
  | cons x rest ih =>
    intro acc hall h
    simp only [List.foldl_cons]
    by_cases hx : x.id = n.id
    · have hxn : x = n := hall x (List.mem_cons_self x rest) hx
      apply ih
      · intro m hm hmid
        exact hall m (List.mem_cons_of_mem x hm) hmid
      · right
        rcases h with ⟨_, hnone⟩ | hsome
        · rw [hxn]
          exact mergeIncomingTodo_sets_entry optMap acc n c hnone hopt
        · rw [hxn]
          exact mergeIncomingTodo_keeps_entry optMap acc n c hsome
    · apply ih
      · intro m hm hmid
        exact hall m (List.mem_cons_of_mem x hm) hmid
      · rcases h with ⟨hn, hnone⟩ | hsome
        · left
          refine ⟨?_, ?_⟩
          · rcases List.mem_cons.mp hn with rfl | hmem
            · exact absurd rfl hx
            · exact hmem
          · rw [mergeIncomingTodo_other optMap acc x n.id hx]
            exact hnone
        · right
          rw [mergeIncomingTodo_other optMap acc x n.id hx]
          exact hsome

/-- Claim C6: when an incoming entity supersedes a locally-created optimistic
entity (version 0) with the same id — the id is purely optimistic, absent from
the server cache — the entity stored in the cache after the merge carries the
locally-known creation time, with every other field taken from the incoming
entity. -/
theorem mergeTodos_preserves_optimistic_createdAt
    (st : ClientState) (localTodos incoming : List CTodo) (o n : CTodo)
    (ho : o ∈ localTodos) (hov : o.version = 0)
    (hlocal : ∀ m ∈ localTodos, m.id = o.id → m = o)
    (hn : n ∈ incoming) (hid : n.id = o.id)
    (hinc : ∀ m ∈ incoming, m.id = o.id → m = n)
    (hcache : getServerTodo st o.id = none) :
    getServerTodo (mergeTodos st localTodos incoming).1 n.id =
      some ({ n with createdAt := o.createdAt }) := by
  have hopt : lookupAssoc (collectOptimisticCreatedAt localTodos) n.id = some o.createdAt := by
    rw [hid]
    apply optimisticCreatedAt_foldl o.id o.createdAt localTodos []
    · intro m hm hmid _
      rw [hlocal m hm hmid]
    · exact Or.inl ⟨o, ho, rfl, by simp [isOptimisticTodo, hov]⟩
  have hfold := foldl_merge_entry (collectOptimisticCreatedAt localTodos) n o.createdAt hopt
    incoming st
    (fun m hm hmid => hinc m hm (hid ▸ hmid))
    (Or.inl ⟨hn, by rw [hid]; exact hcache⟩)
  simpa only [mergeTodos] using hfold

/-- Witness for C6: a confirmed todo replaces its optimistic original and
keeps the optimistic creation time 5, not the server echo 9. -/
theorem mergeTodos_preserves_optimistic_createdAt_witness :
    getServerTodo
        (mergeTodos ⟨[], [], []⟩
          [⟨"a", "l", "t", TodoState.TODO, "u1", 5, 5, 0, none⟩]
          [⟨"a", "l", "t", TodoState.ONGOING, "u1", 9, 10, 1, none⟩]).1 "a" =
      some ⟨"a", "l", "t", TodoState.ONGOING, "u1", 5, 10, 1, none⟩ :=
  mergeTodos_preserves_optimistic_createdAt ⟨[], [], []⟩
    [⟨"a", "l", "t", TodoState.TODO, "u1", 5, 5, 0, none⟩]
    [⟨"a", "l", "t", TodoState.ONGOING, "u1", 9, 10, 1, none⟩]
    ⟨"a", "l", "t", TodoState.TODO, "u1", 5, 5, 0, none⟩
    ⟨"a", "l", "t", TodoState.ONGOING, "u1", 9, 10, 1, none⟩
    (by decide) (by decide) (by decide) (by decide) (by decide) (by decide) (by decide)

/-! ## C7/C8: the mutation processor's conflict and network-error handling -/

theorem updateServerStateEntry_pendingMutations (st : ClientState) (t : CTodo)
    (p : Option Nat) :
    (updateServerStateEntry st t p).pendingMutations = st.pendingMutations := by
  unfold updateServerStateEntry setServerTodo
  split <;> rfl

theorem mergeIncomingTodo_pendingMutations (optMap : List (String × Nat))
    (acc : ClientState) (t : CTodo) :
    (mergeIncomingTodo optMap acc t).pendingMutations = acc.pendingMutations :=
  updateServerStateEntry_pendingMutations acc t _

theorem foldl_merge_pendingMutations (optMap : List (String × Nat)) (l : List CTodo) :
    ∀ acc : ClientState,
      (l.foldl (mergeIncomingTodo optMap) acc).pendingMutations = acc.pendingMutations := by
  induction l with
  | nil => intro acc; rfl
  | cons x rest ih =>
    intro acc
    rw [List.foldl_cons, ih (mergeIncomingTodo optMap acc x)]
    exact mergeIncomingTodo_pendingMutations optMap acc x

theorem mergeTodos_fst_pendingMutations (st : ClientState) (lt inc : List CTodo) :
    (mergeTodos st lt inc).1.pendingMutations = st.pendingMutations := by
  simp only [mergeTodos]
  exact foldl_merge_pendingMutations (collectOptimisticCreatedAt lt) inc st

theorem updateDisplayTodos_pendingMutations (st : ClientState) (sv : List CTodo) :
    (updateDisplayTodos st sv).pendingMutations = st.pendingMutations := by
  unfold updateDisplayTodos
  exact mergeTodos_fst_pendingMutations st st.displayTodos sv

theorem getNextMutation_of_pending_eq (st1 st2 : ClientState) (todoId : String)
    (h : st1.pendingMutations = st2.pendingMutations) :
    getNextMutation st1 todoId = getNextMutation st2 todoId := by
  unfold getNextMutation
  rw [h]

/-- Claim C7: when executing the head mutation returns a version-conflict
carrying the current authoritative entity, the iteration merges that entity
into the client cache (`updateDisplayTodos` with the returned todo), leaves
every pending-mutation queue unchanged — the mutation stays at the head — and
immediately continues the loop: a version-conflict never exits the run. -/
theorem processMutations_versionConflict_step
    (hasUser : Bool) (api : PendingMutation → Nat → ExecutionResult)
    (syncEffect : ClientState → ClientState) (st : ClientState) (todoId : String)
    (attempt : Nat) (m : PendingMutation) (t : CTodo)
    (hm : getNextMutation st todoId = some m)
    (hval : validateMutation st m = ValidationResult.proceed)
    (hexec : executeMutation hasUser st m api = ExecutionResult.versionConflict t) :
    processMutationsStep true true hasUser api syncEffect st todoId attempt =
      ⟨updateDisplayTodos st [t], Control.continueLoop, 1, none⟩ ∧
    (updateDisplayTodos st [t]).pendingMutations = st.pendingMutations ∧
    getNextMutation (updateDisplayTodos st [t]) todoId = some m := by
  refine ⟨?_, updateDisplayTodos_pendingMutations st [t], ?_⟩
  · simp [processMutationsStep, hm, hval, hexec]
  · rw [getNextMutation_of_pending_eq (updateDisplayTodos st [t]) st todoId
      (updateDisplayTodos_pendingMutations st [t])]
    exact hm

/-- Witness for C7: a conflicting update leaves the queued mutation at the
head and continues the loop with the authoritative todo merged. -/
theorem processMutations_versionConflict_step_witness :
    processMutationsStep true true true
        (fun _ _ => ExecutionResult.versionConflict ⟨"a", "l", "t", TodoState.DONE, "u1", 5, 7, 4, none⟩)
        id
        ⟨[("a", ⟨"a", "l", "t", TodoState.TODO, "u1", 5, 5, 3, none⟩)],
         [("a", [⟨"m1", "a", TodoState.ONGOING, 6⟩])], []⟩
        "a" 1 =
      ⟨updateDisplayTodos
          ⟨[("a", ⟨"a", "l", "t", TodoState.TODO, "u1", 5, 5, 3, none⟩)],
           [("a", [⟨"m1", "a", TodoState.ONGOING, 6⟩])], []⟩
          [⟨"a", "l", "t", TodoState.DONE, "u1", 5, 7, 4, none⟩],
        Control.continueLoop, 1, none⟩ ∧
    (updateDisplayTodos
        ⟨[("a", ⟨"a", "l", "t", TodoState.TODO, "u1", 5, 5, 3, none⟩)],
         [("a", [⟨"m1", "a", TodoState.ONGOING, 6⟩])], []⟩
        [⟨"a", "l", "t", TodoState.DONE, "u1", 5, 7, 4, none⟩]).pendingMutations =
      [("a", [⟨"m1", "a", TodoState.ONGOING, 6⟩])] ∧
    getNextMutation
        (updateDisplayTodos
          ⟨[("a", ⟨"a", "l", "t", TodoState.TODO, "u1", 5, 5, 3, none⟩)],
           [("a", [⟨"m1", "a", TodoState.ONGOING, 6⟩])], []⟩
          [⟨"a", "l", "t", TodoState.DONE, "u1", 5, 7, 4, none⟩]) "a" =
      some ⟨"m1", "a", TodoState.ONGOING, 6⟩ :=
  processMutations_versionConflict_step true
    (fun _ _ => ExecutionResult.versionConflict ⟨"a", "l", "t", TodoState.DONE, "u1", 5, 7, 4, none⟩)
    id
    ⟨[("a", ⟨"a", "l", "t", TodoState.TODO, "u1", 5, 5, 3, none⟩)],
     [("a", [⟨"m1", "a", TodoState.ONGOING, 6⟩])], []⟩
    "a" 1 ⟨"m1", "a", TodoState.ONGOING, 6⟩
    ⟨"a", "l", "t", TodoState.DONE, "u1", 5, 7, 4, none⟩
    (by decide) (by decide) (by decide)

/-- Claim C8: a network/transport failure of the head mutation's execution
retries with the exponentially growing default backoff delay while the retry
counter is below the fixed ceiling `DEFAULT_RETRIES`, and once the counter
reaches the ceiling the run exits without dequeuing — the mutation is still at
the head of its queue; in both cases the client state is untouched. -/
theorem processMutations_networkError_backoff
    (hasUser : Bool) (api : PendingMutation → Nat → ExecutionResult)
    (syncEffect : ClientState → ClientState) (st : ClientState) (todoId : String)
    (attempt : Nat) (m : PendingMutation) (msg : String)
    (hm : getNextMutation st todoId = some m)
    (hval : validateMutation st m = ValidationResult.proceed)
    (hexec : executeMutation hasUser st m api = ExecutionResult.networkError msg) :
    (attempt < DEFAULT_RETRIES →
      processMutationsStep true true hasUser api syncEffect st todoId attempt =
        ⟨st, Control.continueLoop, attempt + 1, some (defaultBackoffDelay attempt)⟩) ∧
    (DEFAULT_RETRIES ≤ attempt →
      processMutationsStep true true hasUser api syncEffect st todoId attempt =
        ⟨st, Control.exitRun, attempt, none⟩) ∧
    (processMutationsStep true true hasUser api syncEffect st todoId attempt).state = st ∧
    getNextMutation
        (processMutationsStep true true hasUser api syncEffect st todoId attempt).state
        todoId = some m ∧
    (∀ a, 1 ≤ a → defaultBackoffDelay (a + 1) = DEFAULT_FACTOR * defaultBackoffDelay a) := by
  have hA : attempt < DEFAULT_RETRIES →
      processMutationsStep true true hasUser api syncEffect st todoId attempt =
        ⟨st, Control.continueLoop, attempt + 1, some (defaultBackoffDelay attempt)⟩ := by
    intro hlt
    have hnot : ¬ attempt ≥ DEFAULT_RETRIES := by omega
    simp [processMutationsStep, hm, hval, hexec, hnot]
  have hB : DEFAULT_RETRIES ≤ attempt →
      processMutationsStep true true hasUser api syncEffect st todoId attempt =
        ⟨st, Control.exitRun, attempt, none⟩ := by
    intro hge
    simp [processMutationsStep, hm, hval, hexec, hge]
  have hstate :
      (processMutationsStep true true hasUser api syncEffect st todoId attempt).state = st := by
    by_cases hc : DEFAULT_RETRIES ≤ attempt
    · rw [hB hc]
    · rw [hA (by omega)]
  refine ⟨hA, hB, hstate, ?_, ?_⟩
  · rw [hstate]
    exact hm
  · intro a ha
    obtain ⟨b, rfl⟩ : ∃ b, a = b + 1 := ⟨a - 1, by omega⟩
    simp only [defaultBackoffDelay, backoffDelay, DEFAULT_FACTOR, DEFAULT_MIN_TIMEOUT,
      Nat.add_sub_cancel]
    ring

/-- Witness for C8: at attempt 1 a network failure waits the first backoff
delay of 1000 ms and retries with the mutation still queued. -/
theorem processMutations_networkError_backoff_witness :
    processMutationsStep true true true (fun _ _ => ExecutionResult.networkError "offline") id
        ⟨[("a", ⟨"a", "l", "t", TodoState.TODO, "u1", 5, 5, 3, none⟩)],
         [("a", [⟨"m1", "a", TodoState.ONGOING, 6⟩])], []⟩
        "a" 1 =
      ⟨⟨[("a", ⟨"a", "l", "t", TodoState.TODO, "u1", 5, 5, 3, none⟩)],
        [("a", [⟨"m1", "a", TodoState.ONGOING, 6⟩])], []⟩,
       Control.continueLoop, 2, some 1000⟩ :=
  (processMutations_networkError_backoff true
    (fun _ _ => ExecutionResult.networkError "offline") id
    ⟨[("a", ⟨"a", "l", "t", TodoState.TODO, "u1", 5, 5, 3, none⟩)],
     [("a", [⟨"m1", "a", TodoState.ONGOING, 6⟩])], []⟩
    "a" 1 ⟨"m1", "a", TodoState.ONGOING, 6⟩ "offline"
    (by decide) (by decide) (by decide)).1 (by decide)

/-! ## C3: cursor-filtered, ordered listing -/

theorem lookupAssoc_eq_some_mem {α : Type} {m : List (String × α)} {k : String} {v : α}
    (h : lookupAssoc m k = some v) : (k, v) ∈ m := by
  unfold lookupAssoc at h
  cases hf : m.find? (fun p => p.1 == k) with
  | none => rw [hf] at h; simp at h
  | some p =>
    rw [hf] at h
    simp at h
    have hp1 : p.1 = k := by
      have := List.find?_some hf
      simpa using this
    have hmem := List.mem_of_find?_eq_some hf
    have hpv : p = (k, v) := Prod.ext hp1 h
    rw [← hpv]
    exact hmem

theorem mem_lookupAssoc {α : Type} {m : List (String × α)} {k : String} {v : α}
    (hnd : (m.map Prod.fst).Nodup) (hmem : (k, v) ∈ m) : lookupAssoc m k = some v := by
  induction m with
  | nil => exact absurd hmem (List.not_mem_nil _)
  | cons p rest ih =>
    rw [List.map_cons, List.nodup_cons] at hnd
    rw [lookupAssoc_cons]
    rcases List.mem_cons.mp hmem with heq | hmem2
    · rw [← heq]
      rw [if_pos rfl]
    · have hk : p.1 ≠ k := by
        intro hpk
        exact hnd.1 (hpk ▸ List.mem_map.mpr ⟨(k, v), hmem2, rfl⟩)
      rw [if_neg hk]
      exact ih hnd.2 hmem2

theorem isTodoAfterCursor_eq (t : Todo) (u d : String) :
    isTodoAfterCursor t u d = decide (strictlyAfterCursor u d t) := by
  unfold isTodoAfterCursor strictlyAfterCursor
  by_cases h1 : u < t.updatedAt
  · simp [h1]
  · by_cases h2 : t.updatedAt = u ∧ d < t.id
    · obtain ⟨h2a, h2b⟩ := h2
      simp [h1, h2a, h2b]
    · have h3 : ¬ (u = t.updatedAt ∧ d < t.id) := by
        rintro ⟨ha, hb⟩
        exact h2 ⟨ha.symm, hb⟩
      simp [h1, h2, h3, eq_comm]

theorem cursorFilterKeep_eq_specKeep (cursor : Option SyncCursor) (t : Todo)
    (hcur : ∀ c ∈ cursor, ∃ u, c.updatedAt = some u ∧ u ≠ "") :
    cursorFilterKeep cursor t = specKeep cursor t := by
  cases cursor with
  | none => rfl
  | some c =>
    obtain ⟨u, hu, hne⟩ := hcur c rfl
    simp only [cursorFilterKeep, specKeep]
    rw [hu]
    simp [hne, isTodoAfterCursor_eq]

theorem todoSortLe_iff (a b : Todo) :
    todoSortLe a b = true ↔ toLex (a.updatedAt, a.id) ≤ toLex (b.updatedAt, b.id) := by
  rw [Prod.Lex.le_iff]
  unfold todoSortLe
  by_cases e : a.updatedAt = b.updatedAt
  · simp [e]
  · simp [e]

theorem todoSortLe_trans (a b c : Todo) (h1 : todoSortLe a b = true)
    (h2 : todoSortLe b c = true) : todoSortLe a c = true := by
  rw [todoSortLe_iff] at h1 h2 ⊢
  exact le_trans h1 h2

theorem todoSortLe_total (a b : Todo) : (todoSortLe a b || todoSortLe b a) = true := by
  rcases le_total (toLex (a.updatedAt, a.id)) (toLex (b.updatedAt, b.id)) with h | h
  · simp [todoSortLe_iff, h]
  · simp [todoSortLe_iff, h]

theorem collectTodo_eq_some (s : Store) (cursor : Option SyncCursor) (a : String) (t : Todo) :
    collectTodo s cursor a = some t ↔
      (lookupTodo s.todos a = some t ∧ cursorFilterKeep cursor t = true) := by
  unfold collectTodo
  cases h : lookupTodo s.todos a with
  | none => simp
  | some todo =>
    show (if cursorFilterKeep cursor todo then some todo else none) = some t ↔
      (some todo = some t ∧ cursorFilterKeep cursor t = true)
    constructor
    · intro hco
      by_cases hk : cursorFilterKeep cursor todo = true
      · rw [if_pos hk] at hco
        obtain rfl : todo = t := by injection hco
        exact ⟨rfl, hk⟩
      · rw [if_neg hk] at hco
        exact absurd hco (by simp)
    · rintro ⟨hsome, hkeep⟩
      obtain rfl : todo = t := by injection hsome
      rw [if_pos hkeep]

/-- Claim C3: under the store invariants, `getTodosForList` returns, for every
list and cursor (the cursor, when present, carrying a nonempty `updatedAt`),
exactly the stored todos of that list whose composite key `(updatedAt, id)`
strictly exceeds the cursor — all todos of the list when the cursor is absent
— sorted ascending by that key; soft-deleted todos are subject to the same
filter only, so every deleted todo after the cursor is included. -/
theorem getTodosForList_spec (s : Store) (listId : String) (cursor : Option SyncCursor)
    (hwf : storeWF s)
    (hcur : ∀ c ∈ cursor, ∃ u, c.updatedAt = some u ∧ u ≠ "") :
    (getTodosForList s listId cursor).Perm
        ((listTodos s listId).filter (specKeep cursor)) ∧
    (getTodosForList s listId cursor).Pairwise
        (fun a b => a.updatedAt < b.updatedAt ∨ (a.updatedAt = b.updatedAt ∧ a.id ≤ b.id)) ∧
    (∀ t ∈ listTodos s listId, specKeep cursor t = true →
      t ∈ getTodosForList s listId cursor) := by
  obtain ⟨hkeys, hkeyid, hblkeys, hidsnodup, hsound, hcomplete⟩ := hwf
  have hfk : ∀ u : Todo, cursorFilterKeep cursor u = specKeep cursor u :=
    fun u => cursorFilterKeep_eq_specKeep cursor u hcur
  cases hlk : lookupAssoc s.todosByList listId with
  | none =>
    have hlt : listTodos s listId = [] := by
      rw [List.eq_nil_iff_forall_not_mem]
      intro t ht
      unfold listTodos at ht
      obtain ⟨hmm, hlid⟩ := List.mem_filter.mp ht
      obtain ⟨p, hp, hps⟩ := List.mem_map.mp hmm
      have hcc := hcomplete p hp
      have hpl : p.2.listId = listId := by
        rw [hps]
        simpa using hlid
      rw [hpl, hlk] at hcc
      simp at hcc
    have hg : getTodosForList s listId cursor = [] := by
      unfold getTodosForList
      rw [hlk]
    refine ⟨?_, ?_, ?_⟩
    · rw [hg, hlt]
      exact List.Perm.refl []
    · rw [hg]
      exact List.Pairwise.nil
    · intro t ht
      rw [hlt] at ht
      exact absurd ht (List.not_mem_nil t)
  | some ids =>
    have hblmem : (listId, ids) ∈ s.todosByList := lookupAssoc_eq_some_mem hlk
    have hids : ids.Nodup := hidsnodup (listId, ids) hblmem
    have hg : getTodosForList s listId cursor =
        (ids.filterMap (collectTodo s cursor)).mergeSort todoSortLe := by
      unfold getTodosForList
      rw [hlk]
    have hmemc : ∀ t, t ∈ ids.filterMap (collectTodo s cursor) ↔
        (t ∈ listTodos s listId ∧ specKeep cursor t = true) := by
      intro t
      rw [List.mem_filterMap]
      constructor
      · rintro ⟨a, ha, hca⟩
        obtain ⟨hlook, hkeep⟩ := (collectTodo_eq_some s cursor a t).mp hca
        have hmem : (a, t) ∈ s.todos := lookupAssoc_eq_some_mem hlook
        have hlid : t.listId = listId :=
          hsound (listId, ids) hblmem a ha (a, t) hmem rfl
        refine ⟨?_, ?_⟩
        · unfold listTodos
          exact List.mem_filter.mpr ⟨List.mem_map.mpr ⟨(a, t), hmem, rfl⟩, by simp [hlid]⟩
        · rw [← hfk t]
          exact hkeep
      · rintro ⟨hlt, hkeep⟩
        unfold listTodos at hlt
        obtain ⟨hmm, hlid⟩ := List.mem_filter.mp hlt
        obtain ⟨p, hp, hps⟩ := List.mem_map.mp hmm
        have hlook : lookupTodo s.todos p.1 = some t := by
          unfold lookupTodo
          rw [← hps]
          exact mem_lookupAssoc hkeys hp
        have hlid2 : p.2.listId = listId := by
          rw [hps]
          simpa using hlid
        have hinx := hcomplete p hp
        rw [hlid2, hlk] at hinx
        simp only [Option.getD_some] at hinx
        refine ⟨p.1, hinx, ?_⟩
        rw [collectTodo_eq_some]
        refine ⟨hlook, ?_⟩
        rw [hfk t]
        exact hkeep
    have hnodupcollect : (ids.filterMap (collectTodo s cursor)).Nodup := by
      refine List.Nodup.filterMap ?_ hids
      intro a a2 t hta hta2
      obtain ⟨h1, _⟩ := (collectTodo_eq_some s cursor a t).mp hta
      obtain ⟨h2, _⟩ := (collectTodo_eq_some s cursor a2 t).mp hta2
      have e1 : t.id = a := hkeyid (a, t) (lookupAssoc_eq_some_mem h1)
      have e2 : t.id = a2 := hkeyid (a2, t) (lookupAssoc_eq_some_mem h2)
      rw [← e1, ← e2]
    have hnduplist : ((listTodos s listId).filter (specKeep cursor)).Nodup := by
      apply List.Nodup.filter
      unfold listTodos
      apply List.Nodup.filter
      apply List.Nodup.map_on
      · intro x hx y hy hxy
        have ex : x.2.id = x.1 := hkeyid x hx
        have ey : y.2.id = y.1 := hkeyid y hy
        refine Prod.ext ?_ hxy
        rw [← ex, ← ey, hxy]
      · exact List.Nodup.of_map Prod.fst hkeys
    have hperm : (getTodosForList s listId cursor).Perm
        ((listTodos s listId).filter (specKeep cursor)) := by
      rw [hg]
      refine (List.mergeSort_perm (ids.filterMap (collectTodo s cursor)) todoSortLe).trans ?_
      rw [List.perm_ext_iff_of_nodup hnodupcollect hnduplist]
      intro t
      rw [hmemc t, List.mem_filter]
    refine ⟨hperm, ?_, ?_⟩
    · rw [hg]
      refine (List.sorted_mergeSort todoSortLe_trans todoSortLe_total
        (ids.filterMap (collectTodo s cursor))).imp ?_
      intro a b hab
      rw [todoSortLe_iff, Prod.Lex.le_iff] at hab
      simpa using hab
    · intro t ht hk
      exact hperm.mem_iff.mpr (List.mem_filter.mpr ⟨ht, hk⟩)

/-- Witness for C3: a two-todo store (one of them soft-deleted) and a concrete
cursor satisfying the store invariants. -/
theorem getTodosForList_spec_witness :
    (getTodosForList
        { todos := [("a", ⟨"a", "l", "t1", TodoState.TODO, "u",
                      "2024-01-01T00:00:00.000Z", "2024-01-02T00:00:00.000Z", 1, none⟩),
                    ("b", ⟨"b", "l", "t2", TodoState.DONE, "u",
                      "2024-01-01T00:00:00.000Z", "2024-01-03T00:00:00.000Z", 2,
                      some "2024-01-04T00:00:00.000Z"⟩)],
          todosByList := [("l", ["a", "b"])] }
        "l" (some { updatedAt := some "2024-01-02T00:00:00.000Z", todoId := some "a" })).Perm
      ((listTodos
          { todos := [("a", ⟨"a", "l", "t1", TodoState.TODO, "u",
                        "2024-01-01T00:00:00.000Z", "2024-01-02T00:00:00.000Z", 1, none⟩),
                      ("b", ⟨"b", "l", "t2", TodoState.DONE, "u",
                        "2024-01-01T00:00:00.000Z", "2024-01-03T00:00:00.000Z", 2,
                        some "2024-01-04T00:00:00.000Z"⟩)],
            todosByList := [("l", ["a", "b"])] }
          "l").filter
        (specKeep (some { updatedAt := some "2024-01-02T00:00:00.000Z",
                          todoId := some "a" }))) ∧
    (getTodosForList
        { todos := [("a", ⟨"a", "l", "t1", TodoState.TODO, "u",
                      "2024-01-01T00:00:00.000Z", "2024-01-02T00:00:00.000Z", 1, none⟩),
                    ("b", ⟨"b", "l", "t2", TodoState.DONE, "u",
                      "2024-01-01T00:00:00.000Z", "2024-01-03T00:00:00.000Z", 2,
                      some "2024-01-04T00:00:00.000Z"⟩)],
          todosByList := [("l", ["a", "b"])] }
        "l" (some { updatedAt := some "2024-01-02T00:00:00.000Z",
                    todoId := some "a" })).Pairwise
      (fun a b => a.updatedAt < b.updatedAt ∨ (a.updatedAt = b.updatedAt ∧ a.id ≤ b.id)) ∧
    (∀ t ∈ listTodos
        { todos := [("a", ⟨"a", "l", "t1", TodoState.TODO, "u",
                      "2024-01-01T00:00:00.000Z", "2024-01-02T00:00:00.000Z", 1, none⟩),
                    ("b", ⟨"b", "l", "t2", TodoState.DONE, "u",
                      "2024-01-01T00:00:00.000Z", "2024-01-03T00:00:00.000Z", 2,
                      some "2024-01-04T00:00:00.000Z"⟩)],
          todosByList := [("l", ["a", "b"])] }
        "l",
      specKeep (some { updatedAt := some "2024-01-02T00:00:00.000Z", todoId := some "a" })
          t = true →
        t ∈ getTodosForList
          { todos := [("a", ⟨"a", "l", "t1", TodoState.TODO, "u",
                        "2024-01-01T00:00:00.000Z", "2024-01-02T00:00:00.000Z", 1, none⟩),
                      ("b", ⟨"b", "l", "t2", TodoState.DONE, "u",
                        "2024-01-01T00:00:00.000Z", "2024-01-03T00:00:00.000Z", 2,
                        some "2024-01-04T00:00:00.000Z"⟩)],
            todosByList := [("l", ["a", "b"])] }
          "l" (some { updatedAt := some "2024-01-02T00:00:00.000Z", todoId := some "a" })) :=
  getTodosForList_spec
    { todos := [("a", ⟨"a", "l", "t1", TodoState.TODO, "u",
                  "2024-01-01T00:00:00.000Z", "2024-01-02T00:00:00.000Z", 1, none⟩),
                ("b", ⟨"b", "l", "t2", TodoState.DONE, "u",
                  "2024-01-01T00:00:00.000Z", "2024-01-03T00:00:00.000Z", 2,
                  some "2024-01-04T00:00:00.000Z"⟩)],
      todosByList := [("l", ["a", "b"])] }
    "l" (some { updatedAt := some "2024-01-02T00:00:00.000Z", todoId := some "a" })
    (by decide)
    (by
      intro c hc
      rw [Option.mem_def] at hc
      injection hc with h
      rw [← h]
      exact ⟨"2024-01-02T00:00:00.000Z", rfl, by decide⟩)
